import Mathlib

/-!
Verification of the news aggregation pipeline in `src/news_scraper.py`
(class `EnhancedNewsScraper`): URL deduplication, keyword categorization,
per-category stores, snapshotting, and the summarizer with its degraded
fallback.  Strings are modelled as lists of characters; Python's `in`
substring test, `str.lower`, `str.strip`, `str.startswith` are modelled
character-wise.  The external model call is a parameter
`callModel : Str → Except Str Str`, an `Except.error` standing for an
exception raised by the client library.
-/

namespace NewsDaily

/-- Strings are lists of characters (Python `str`). -/
abbrev Str := List Char

/-- Python `s.lower()`: character-wise lowercasing. -/
def strLower (s : Str) : Str := s.map Char.toLower

/-- Python `needle in hay`: substring containment. -/
def pyIn (needle hay : Str) : Bool := hay.tails.any (fun t => needle.isPrefixOf t)

/-- Python `s.strip()`: drop whitespace from both ends. -/
def pyStrip (s : Str) : Str :=
  ((s.dropWhile Char.isWhitespace).reverse.dropWhile Char.isWhitespace).reverse

/-- Python `s.startswith(p)`. -/
def startsWith (s p : Str) : Bool := p.isPrefixOf s

/-- The keyword registry `self.categories` of `EnhancedNewsScraper.__init__`:
category name paired with its keyword list, in declaration order. -/
def defaultCategories : List (Str × List Str) :=
  [("科技".data, ["technology".data, "tech".data, "科技".data, "数码".data, "互联网".data,
      "软件".data, "硬件".data, "创新".data, "startup".data, "digital".data, "internet".data]),
   ("金融".data, ["finance".data, "financial".data, "金融".data, "股市".data, "银行".data,
      "投资".data, "经济".data, "market".data, "economy".data, "stock".data, "banking".data]),
   ("AI".data, ["ai".data, "artificial intelligence".data, "人工智能".data, "机器学习".data,
      "深度学习".data, "算法".data, "ml".data, "neural".data, "chatgpt".data, "大模型".data]),
   ("教育".data, ["education".data, "educational".data, "教育".data, "学校".data, "大学".data,
      "学习".data, "培训".data, "edu".data, "university".data, "school".data]),
   ("医疗".data, ["health".data, "medical".data, "医疗".data, "健康".data, "医院".data,
      "疾病".data, "药物".data, "medicine".data, "hospital".data, "doctor".data]),
   ("环保".data, ["environment".data, "climate".data, "环保".data, "环境".data, "气候变化".data,
      "可持续".data, "green".data, "sustainability".data, "carbon".data, "eco".data]),
   ("汽车".data, ["car".data, "auto".data, "汽车".data, "电动车".data, "电动汽车".data,
      "tesla".data, "ev".data, "vehicle".data]),
   ("游戏".data, ["game".data, "gaming".data, "游戏".data, "电竞".data, "电子竞技".data,
      "playstation".data, "xbox".data]),
   ("区块链".data, ["blockchain".data, "crypto".data, "区块链".data, "加密货币".data,
      "比特币".data, "ethereum".data, "nft".data])]

/-- Score of one keyword in `categorize_article`'s inner loop: `+1` when the
lowercased keyword occurs in `full_content`, a further `+2` when it also
occurs in `title.lower()`. -/
def keywordPoints (title fullContent : Str) (keyword : Str) : Nat :=
  let keywordLower := strLower keyword
  if pyIn keywordLower fullContent = true then
    1 + (if pyIn keywordLower (strLower title) = true then 2 else 0)
  else 0

/-- The per-category score accumulated by `categorize_article`'s `for keyword
in keywords` loop. -/
def categoryScore (title fullContent : Str) (keywords : List Str) : Nat :=
  (keywords.map (keywordPoints title fullContent)).sum

/-- `EnhancedNewsScraper.categorize_article` (lines 184-211): build
`full_content = (title + " " + content).lower()`, score every category,
keep those whose score reaches `threshold = 1`, and return
`(len(relevant_categories) > 0, relevant_categories)`. -/
def categorize_article (categories : List (Str × List Str)) (title content : Str) :
    Bool × List Str :=
  let fullContent := strLower (title ++ ' ' :: content)
  let matchScores := categories.map (fun p => (p.1, categoryScore title fullContent p.2))
  let relevant := (matchScores.filter (fun p => decide (p.2 ≥ 1))).map (fun p => p.1)
  (decide (relevant.length > 0), relevant)

theorem strLower_append (a b : Str) : strLower (a ++ b) = strLower a ++ strLower b :=
  List.map_append Char.toLower a b

theorem strLower_space_cons (b : Str) : strLower (' ' :: b) = ' ' :: strLower b := by
  simp [strLower]

/-- A category's score reaches the threshold `1` exactly when one of its
lowercased keywords occurs in the lowercased full content. -/
theorem categoryScore_pos_iff (title fullContent : Str) (keywords : List Str) :
    1 ≤ categoryScore title fullContent keywords ↔
      ∃ k ∈ keywords, pyIn (strLower k) fullContent = true := by
  induction keywords with
  | nil => simp [categoryScore]
  | cons k ks ih =>
    simp only [categoryScore, List.map_cons, List.sum_cons] at *
    constructor
    · intro h
      rcases Nat.lt_or_ge 0 (keywordPoints title fullContent k) with hp | hp
      · refine ⟨k, by simp, ?_⟩
        by_contra hc
        simp [keywordPoints, hc] at hp
      · have : 1 ≤ (ks.map (keywordPoints title fullContent)).sum := by omega
        obtain ⟨k', hk', hin⟩ := ih.mp this
        exact ⟨k', by simp [hk'], hin⟩
    · rintro ⟨k', hk', hin⟩
      rcases List.mem_cons.mp hk' with rfl | hmem
      · have : 1 ≤ keywordPoints title fullContent k' := by
          simp [keywordPoints, hin]
        omega
      · have : 1 ≤ (ks.map (keywordPoints title fullContent)).sum :=
          ih.mpr ⟨k', hmem, hin⟩
        omega

/-- C1: `categorize_article` returns exactly the categories owning a keyword
whose lowercased form is a substring of `lower(title) ++ " " ++ lower(summary)`
(threshold 1, substring containment), the boolean flag is true exactly when
that list is non-empty, and in particular the result is the empty list — not
an error — when no category has such a keyword. -/
theorem categorize_article_spec (categories : List (Str × List Str)) (title summary : Str) :
    (∀ cat, cat ∈ (categorize_article categories title summary).2 ↔
        ∃ p ∈ categories, p.1 = cat ∧
          ∃ k ∈ p.2, pyIn (strLower k) (strLower title ++ ' ' :: strLower summary) = true) ∧
    ((categorize_article categories title summary).1 = true ↔
        (categorize_article categories title summary).2 ≠ []) := by
  have hfull : strLower (title ++ ' ' :: summary) =
      strLower title ++ ' ' :: strLower summary := by
    rw [strLower_append, strLower_space_cons]
  constructor
  · intro cat
    constructor
    · intro h
      simp only [categorize_article, List.mem_map, List.mem_filter, decide_eq_true_eq] at h
      obtain ⟨q, ⟨hqmem, hq1⟩, hq2⟩ := h
      obtain ⟨p, hp, rfl⟩ := hqmem
      obtain ⟨k, hk, hkin⟩ := (categoryScore_pos_iff _ _ _).mp hq1
      rw [hfull] at hkin
      exact ⟨p, hp, hq2, k, hk, hkin⟩
    · rintro ⟨p, hp, hpc, k, hk, hkin⟩
      simp only [categorize_article, List.mem_map, List.mem_filter, decide_eq_true_eq]
      refine ⟨(p.1, categoryScore title (strLower (title ++ ' ' :: summary)) p.2),
        ⟨⟨p, hp, rfl⟩, ?_⟩, hpc⟩
      rw [hfull]
      exact (categoryScore_pos_iff _ _ _).mpr ⟨k, hk, hkin⟩
  · have hfst : (categorize_article categories title summary).1 =
        decide ((categorize_article categories title summary).2.length > 0) := rfl
    rw [hfst]
    cases hm : (categorize_article categories title summary).2 with
    | nil => simp [hm]
    | cons a l => simp

/-- The article record built at lines 152-158 of `fetch_news_from_rss`. -/
structure Article where
  title : Str
  url : Str
  summary : Str
  publish_date : Option Str
  source : Str
deriving DecidableEq

/-- `self.articles_by_category`: category name to its ordered article list,
in registry declaration order (Python dict preserves insertion order). -/
abbrev Store := List (Str × List Article)

/-- The URL gating of lines 142-147 of `fetch_news_from_rss`: a `link` already
in `processed_urls` is skipped (`continue`); otherwise the link is added to
`processed_urls` first (line 145), and the entry proceeds only when `link` is
truthy, i.e. non-empty (line 147).  Returns (entry proceeds?, new seen-set). -/
def dedupAccept (processed : List Str) (link : Str) : Bool × List Str :=
  if link ∈ processed then (false, processed)
  else (decide (link ≠ []), link :: processed)

/-- Lines 161-164 of `fetch_news_from_rss`: append `article` to `category`'s
sequence unless some stored article's `url` equals the raw `link`
(`if not any(a['url'] == link for a in ...): append(article_data)`). -/
def store_add (store : Store) (category : Str) (link : Str) (article : Article) : Store :=
  store.map (fun p =>
    if p.1 = category then
      (p.1, if p.2.any (fun a => a.url == link) then p.2 else p.2 ++ [article])
    else p)

/-- No category's sequence holds two articles with the same url. -/
def noDupUrls (store : Store) : Prop :=
  ∀ p ∈ store, ((p.2.map (fun a => a.url)).Nodup)

/-- The per-category loop of `remove_duplicates` (lines 217-226): keep an
article only when its url is not yet in `seen_urls`, recording kept urls. -/
def dedupArticles (seen : List Str) : List Article → List Article
  | [] => []
  | a :: rest =>
    if a.url ∈ seen then dedupArticles seen rest
    else a :: dedupArticles (a.url :: seen) rest

/-- `EnhancedNewsScraper.remove_duplicates` (lines 213-229). -/
def remove_duplicates (store : Store) : Store :=
  store.map (fun p => (p.1, dedupArticles [] p.2))

/-- C3 counterexample: an empty url is never accepted, yet it IS recorded in
the seen-set on its first encounter — `processed_urls.add(link)` at line 145
runs before the truthiness check at line 147 — so "never recorded" fails. -/
theorem dedupAccept_empty_url_recorded :
    (dedupAccept [] []).1 = false ∧ (dedupAccept [] []).2 = [([] : Str)] := by
  constructor <;> rfl

/-- C3 amended: `dedupAccept` proceeds exactly on the first call with a
non-empty url; the url — empty or not — is added to the seen-set the first
time it appears; and a repeated call with the same url never proceeds. -/
theorem dedupAccept_spec (processed : List Str) (link : Str) :
    ((dedupAccept processed link).1 = true ↔ link ∉ processed ∧ link ≠ []) ∧
    ((dedupAccept processed link).2 =
      if link ∈ processed then processed else link :: processed) ∧
    (dedupAccept (dedupAccept processed link).2 link).1 = false := by
  by_cases h : link ∈ processed
  · simp [dedupAccept, h]
  · simp [dedupAccept, h]

/-- A concrete article with url `u1`. -/
def cArticle1 : Article := ⟨"t1".data, "u1".data, "s1".data, none, "src".data⟩

/-- A second concrete article, distinct but with the same url `u1`
(as produced from the raw link `" u1"` after stripping). -/
def cArticle2 : Article := ⟨"t2".data, "u1".data, "s2".data, none, "src".data⟩

/-- A concrete one-category store holding `cArticle1`. -/
def cStore1 : Store := [("科技".data, [cArticle1])]

/-- C4 counterexample: the duplicate check compares stored urls against the
RAW link while the stored url is the STRIPPED link, so inserting an article
whose url (`"u1"`, the strip of link `" u1"`) is already present is not a
no-op: the category ends with two articles carrying the same url. -/
theorem store_add_duplicate_url_inserted :
    cArticle2.url = cArticle1.url ∧
    store_add cStore1 ("科技".data) (' ' :: "u1".data) cArticle2 =
      [("科技".data, [cArticle1, cArticle2])] ∧
    store_add cStore1 ("科技".data) (' ' :: "u1".data) cArticle2 ≠ cStore1 := by
  refine ⟨rfl, ?_, ?_⟩ <;> decide

/-- A single `store_add` with `link = article.url` preserves `noDupUrls`. -/
theorem store_add_preserves_noDupUrls (store : Store) (cat : Str) (article : Article)
    (h : noDupUrls store) :
    noDupUrls (store_add store cat article.url article) := by
  intro p hp
  simp only [store_add, List.mem_map] at hp
  obtain ⟨q, hq, rfl⟩ := hp
  have hbase := h q hq
  by_cases hc : q.1 = cat
  · by_cases hany : q.2.any (fun a => a.url == article.url) = true
    · simpa [hc, hany] using hbase
    · have hfalse : q.2.any (fun a => a.url == article.url) = false := by
        simpa using hany
      have hnotmem : article.url ∉ q.2.map (fun a => a.url) := by
        intro hu
        obtain ⟨a, ha, hae⟩ := List.mem_map.mp hu
        have h2 := List.any_eq_false.mp hfalse a ha
        simp [hae] at h2
      have hcat : ((q.2 ++ [article]).map (fun a => a.url)).Nodup := by
        simp only [List.map_append, List.map_cons, List.map_nil]
        rw [List.nodup_append]
        refine ⟨hbase, List.nodup_singleton _, ?_⟩
        intro u hu hu'
        simp only [List.mem_singleton] at hu'
        subst hu'
        exact hnotmem hu
      simpa [hc, hany] using hcat
  · simpa [hc] using hbase

/-- C4 amended: insertion is a silent no-op when an article whose url equals
the RAW link is already in the category's sequence; and when every insertion
uses the article's own url as the link (raw link equal to its stripped form),
any sequence of insertions into a duplicate-free store leaves every category
free of duplicate urls. -/
theorem store_add_amended (store : Store) (cat link : Str) (article : Article)
    (ops : List (Str × Article)) :
    ((∀ p ∈ store, p.1 = cat → ∃ a ∈ p.2, a.url = link) →
      store_add store cat link article = store) ∧
    (noDupUrls store →
      noDupUrls (ops.foldl (fun s op => store_add s op.1 op.2.url op.2) store)) := by
  constructor
  · intro h
    induction store with
    | nil => rfl
    | cons q rest ih =>
      have hq : (if q.1 = cat then
          (q.1, if q.2.any (fun a => a.url == link) then q.2 else q.2 ++ [article])
          else q) = q := by
        by_cases hc : q.1 = cat
        · obtain ⟨a, ha, hau⟩ := h q (List.mem_cons_self q rest) hc
          have hany : q.2.any (fun b => b.url == link) = true :=
            List.any_eq_true.mpr ⟨a, ha, beq_iff_eq.mpr hau⟩
          subst hc
          simp [hany]
        · simp [hc]
      have hrest := ih (fun p hp hpc => h p (List.mem_cons_of_mem q hp) hpc)
      simp only [store_add, List.map_cons] at hrest ⊢
      rw [hq, hrest]
  · intro h
    induction ops generalizing store with
    | nil => exact h
    | cons op rest ih =>
      exact ih _ (store_add_preserves_noDupUrls store op.1 op.2 h)

/-- C4 witness at concrete inputs. -/
theorem store_add_amended_witness :
    store_add cStore1 ("科技".data) ("u1".data) cArticle2 = cStore1 ∧
    noDupUrls ([(("科技".data : Str), cArticle2)].foldl
      (fun s op => store_add s op.1 op.2.url op.2) cStore1) :=
  ⟨(store_add_amended cStore1 ("科技".data) ("u1".data) cArticle2 []).1 (by decide),
   (store_add_amended cStore1 ("科技".data) ("u1".data) cArticle2
      [(("科技".data : Str), cArticle2)]).2 (by unfold noDupUrls; decide)⟩

theorem dedupArticles_sublist (seen : List Str) (l : List Article) :
    (dedupArticles seen l).Sublist l := by
  induction l generalizing seen with
  | nil => simp [dedupArticles]
  | cons a rest ih =>
    simp only [dedupArticles]
    by_cases h : a.url ∈ seen
    · rw [if_pos h]
      exact (ih seen).cons a
    · rw [if_neg h]
      exact (ih (a.url :: seen)).cons₂ a

theorem dedupArticles_nodup_fresh (seen : List Str) (l : List Article) :
    (((dedupArticles seen l).map (fun a => a.url)).Nodup) ∧
    ∀ a ∈ dedupArticles seen l, a.url ∉ seen := by
  induction l generalizing seen with
  | nil => simp [dedupArticles]
  | cons a rest ih =>
    simp only [dedupArticles]
    by_cases h : a.url ∈ seen
    · rw [if_pos h]
      exact ih seen
    · rw [if_neg h]
      obtain ⟨hnd, hfresh⟩ := ih (a.url :: seen)
      constructor
      · simp only [List.map_cons, List.nodup_cons]
        refine ⟨?_, hnd⟩
        intro hmem
        obtain ⟨b, hb, hbe⟩ := List.mem_map.mp hmem
        exact hfresh b hb (by simp [hbe])
      · intro b hb
        rcases List.mem_cons.mp hb with rfl | hb'
        · exact h
        · intro hbs
          exact hfresh b hb' (List.mem_cons_of_mem _ hbs)

theorem find?_cons_take (p : Article → Bool) (a : Article) (l : List Article)
    (h : p a = true) : (a :: l).find? p = some a := by
  simp [List.find?, h]

theorem find?_cons_skip (p : Article → Bool) (a : Article) (l : List Article)
    (h : p a = false) : (a :: l).find? p = l.find? p := by
  simp [List.find?, h]

theorem dedupArticles_find? (seen : List Str) (l : List Article) (u : Str)
    (hu : u ∉ seen) :
    (dedupArticles seen l).find? (fun a => a.url == u) =
      l.find? (fun a => a.url == u) := by
  induction l generalizing seen with
  | nil => rfl
  | cons a rest ih =>
    simp only [dedupArticles]
    by_cases h : a.url ∈ seen
    · rw [if_pos h]
      have hne : (fun a : Article => a.url == u) a = false := by
        simp only [beq_eq_false_iff_ne, ne_eq]
        intro he
        exact hu (he ▸ h)
      rw [find?_cons_skip (fun a : Article => a.url == u) a rest hne]
      exact ih seen hu
    · rw [if_neg h]
      by_cases he : (fun a : Article => a.url == u) a = true
      · rw [find?_cons_take (fun a : Article => a.url == u) a rest he,
          find?_cons_take (fun a : Article => a.url == u) a
            (dedupArticles (a.url :: seen) rest) he]
      · have he' : (fun a : Article => a.url == u) a = false := by
          simpa using he
        have hu' : u ∉ a.url :: seen := by
          intro hm
          rcases List.mem_cons.mp hm with rfl | hm'
          · simp at he
          · exact hu hm'
        rw [find?_cons_skip (fun a : Article => a.url == u) a rest he',
          find?_cons_skip (fun a : Article => a.url == u) a
            (dedupArticles (a.url :: seen) rest) he']
        exact ih (a.url :: seen) hu'

theorem dedupArticles_id (seen : List Str) (l : List Article)
    (hnd : ((l.map (fun a => a.url)).Nodup)) (hfresh : ∀ a ∈ l, a.url ∉ seen) :
    dedupArticles seen l = l := by
  induction l generalizing seen with
  | nil => rfl
  | cons a rest ih =>
    simp only [List.map_cons, List.nodup_cons] at hnd
    simp only [dedupArticles]
    rw [if_neg (hfresh a (List.mem_cons_self a rest))]
    congr 1
    apply ih _ hnd.2
    intro b hb hbs
    rcases List.mem_cons.mp hbs with he | hbs'
    · exact hnd.1 (he ▸ List.mem_map.mpr ⟨b, hb, rfl⟩)
    · exact hfresh b (List.mem_cons_of_mem a hb) hbs'

/-- C10: on each category `remove_duplicates` keeps a duplicate-free
subsequence — order preserved — in which the article found for any url is
exactly the first article of the original sequence bearing that url; the
operation is idempotent; and it is the identity on every store already free
of per-category duplicate urls. -/
theorem remove_duplicates_spec (store : Store) :
    List.Forall₂ (fun p q => p.1 = q.1 ∧ q.2.Sublist p.2 ∧
        ((q.2.map (fun a => a.url)).Nodup) ∧
        ∀ u : Str, q.2.find? (fun a => a.url == u) = p.2.find? (fun a => a.url == u))
      store (remove_duplicates store) ∧
    remove_duplicates (remove_duplicates store) = remove_duplicates store ∧
    (noDupUrls store → remove_duplicates store = store) := by
  refine ⟨?_, ?_, ?_⟩
  · rw [remove_duplicates, List.forall₂_map_right_iff]
    rw [List.forall₂_same]
    intro p _
    exact ⟨rfl, dedupArticles_sublist [] p.2, (dedupArticles_nodup_fresh [] p.2).1,
      fun u => dedupArticles_find? [] p.2 u (List.not_mem_nil u)⟩
  · simp only [remove_duplicates, List.map_map]
    apply List.map_congr_left
    intro p _
    simp only [Function.comp]
    congr 1
    exact dedupArticles_id [] _ (dedupArticles_nodup_fresh [] p.2).1
      (fun a _ => List.not_mem_nil a.url)
  · intro h
    conv_rhs => rw [← List.map_id store]
    apply List.map_congr_left
    intro p hp
    have : dedupArticles [] p.2 = p.2 :=
      dedupArticles_id [] p.2 (h p hp) (fun a _ => List.not_mem_nil a.url)
    simp [this]

/-- C10 witness at a concrete duplicate-free store. -/
theorem remove_duplicates_spec_witness : remove_duplicates cStore1 = cStore1 :=
  (remove_duplicates_spec cStore1).2.2 (by unfold noDupUrls; decide)

/-- Stable insertion modelling Python's stable `list.sort(key=lambda x: x[1],
reverse=True)` at line 317 of `generate_html_report`: an element moves past
strictly larger counts only, so of two tied elements the earlier one stays
first. -/
def sortInsertDesc (p : Str × Nat) : List (Str × Nat) → List (Str × Nat)
  | [] => [p]
  | q :: qs => if p.2 < q.2 then q :: sortInsertDesc p qs else p :: q :: qs

/-- Stable descending-by-count sort: the semantics Python guarantees for
`sort(key=..., reverse=True)` (sortedness, stability, permutation). -/
def sortByCountDesc (l : List (Str × Nat)) : List (Str × Nat) :=
  l.foldr sortInsertDesc []

/-- Lines 315-317 of `generate_html_report`: the `(category, count)` pairs of
the non-empty categories, sorted by descending article count. -/
def snapshotCounts (store : Store) : List (Str × Nat) :=
  sortByCountDesc ((store.filter (fun p => !p.2.isEmpty)).map (fun p => (p.1, p.2.length)))

theorem sortInsertDesc_perm (p : Str × Nat) (l : List (Str × Nat)) :
    (sortInsertDesc p l).Perm (p :: l) := by
  induction l with
  | nil => exact List.Perm.refl _
  | cons q qs ih =>
    simp only [sortInsertDesc]
    by_cases h : p.2 < q.2
    · rw [if_pos h]
      exact List.Perm.trans (ih.cons q) (List.Perm.swap p q qs)
    · rw [if_neg h]

theorem sortInsertDesc_pairwise (p : Str × Nat) (l : List (Str × Nat))
    (hl : l.Pairwise (fun a b => b.2 ≤ a.2)) :
    (sortInsertDesc p l).Pairwise (fun a b => b.2 ≤ a.2) := by
  induction l with
  | nil => simp [sortInsertDesc]
  | cons q qs ih =>
    rcases List.pairwise_cons.mp hl with ⟨hq, hqs⟩
    simp only [sortInsertDesc]
    by_cases h : p.2 < q.2
    · rw [if_pos h]
      rw [List.pairwise_cons]
      refine ⟨?_, ih hqs⟩
      intro r hr
      have hr' : r ∈ p :: qs := (sortInsertDesc_perm p qs).mem_iff.mp hr
      rcases List.mem_cons.mp hr' with rfl | hr''
      · exact Nat.le_of_lt h
      · exact hq r hr''
    · rw [if_neg h]
      rw [List.pairwise_cons]
      refine ⟨?_, hl⟩
      intro r hr
      rcases List.mem_cons.mp hr with rfl | hr'
      · exact Nat.le_of_not_lt h
      · exact Nat.le_trans (hq r hr') (Nat.le_of_not_lt h)

theorem sortInsertDesc_filter_count (p : Str × Nat) (l : List (Str × Nat)) (n : Nat) :
    (sortInsertDesc p l).filter (fun q => q.2 == n) =
      if p.2 = n then p :: l.filter (fun q => q.2 == n)
      else l.filter (fun q => q.2 == n) := by
  induction l with
  | nil =>
    by_cases hp : p.2 = n
    · have hb : (p.2 == n) = true := by simpa using hp
      simp [sortInsertDesc, List.filter, hp, hb]
    · have hb : (p.2 == n) = false := by simpa using hp
      simp [sortInsertDesc, List.filter, hp, hb]
  | cons q qs ih =>
    simp only [sortInsertDesc]
    by_cases h : p.2 < q.2
    · rw [if_pos h]
      by_cases hp : p.2 = n
      · have hq : ¬(q.2 = n) := by omega
        simp [List.filter_cons, hp, hq, ih]
      · simp [List.filter_cons, hp, ih]
    · rw [if_neg h]
      by_cases hp : p.2 = n
      · simp [List.filter_cons, hp]
      · simp [List.filter_cons, hp]

theorem sortByCountDesc_perm (l : List (Str × Nat)) : (sortByCountDesc l).Perm l := by
  induction l with
  | nil => exact List.Perm.refl _
  | cons x xs ih =>
    exact List.Perm.trans (sortInsertDesc_perm x (sortByCountDesc xs)) (ih.cons x)

theorem sortByCountDesc_pairwise (l : List (Str × Nat)) :
    (sortByCountDesc l).Pairwise (fun a b => b.2 ≤ a.2) := by
  induction l with
  | nil => simp [sortByCountDesc]
  | cons x xs ih => exact sortInsertDesc_pairwise x (sortByCountDesc xs) ih

theorem sortByCountDesc_filter_count (l : List (Str × Nat)) (n : Nat) :
    (sortByCountDesc l).filter (fun q => q.2 == n) = l.filter (fun q => q.2 == n) := by
  induction l with
  | nil => rfl
  | cons x xs ih =>
    show (sortInsertDesc x (sortByCountDesc xs)).filter (fun q => q.2 == n) = _
    rw [sortInsertDesc_filter_count]
    by_cases hx : x.2 = n
    · simp [List.filter_cons, hx, ih]
    · simp [List.filter_cons, hx, ih]

/-- C5: the snapshot is a permutation of the registry-ordered list of
`(category, count)` pairs of the non-empty categories, it is sorted by
descending count, and every count-slice appears in registry order (ties are
broken by the registry's declared order).  Being a pure function of the
store, it is deterministic. -/
theorem snapshotCounts_spec (store : Store) :
    (snapshotCounts store).Pairwise (fun a b => b.2 ≤ a.2) ∧
    (snapshotCounts store).Perm
      ((store.filter (fun p => !p.2.isEmpty)).map (fun p => (p.1, p.2.length))) ∧
    ∀ n : Nat, (snapshotCounts store).filter (fun q => q.2 == n) =
      ((store.filter (fun p => !p.2.isEmpty)).map (fun p => (p.1, p.2.length))).filter
        (fun q => q.2 == n) :=
  ⟨sortByCountDesc_pairwise _, sortByCountDesc_perm _,
    fun n => sortByCountDesc_filter_count _ n⟩

/-- A summary value: the text returned by `generate_daily_summary` together
with a `degraded` flag marking that the `except` fallback path of lines
302-305 was taken (the Python function encodes the path only in the text;
the flag names which branch produced the value). -/
structure Summary where
  text : Str
  degraded : Bool
deriving DecidableEq

/-- The fixed leading string `今日导览摘要：` every summary must start with. -/
def sentinel : Str := "今日导览摘要：".data

/-- The fixed message returned at lines 255-258 when no article was collected. -/
def noContentMsg : Str := "今日导览摘要：DeepSeek API 调用失败，暂无新闻内容可供分析。".data

/-- Leading part of the fallback message built at line 303. -/
def apiFailPre : Str := "今日导览摘要：DeepSeek API 调用失败 - ".data

/-- Trailing part of the fallback message built at line 303. -/
def apiFailSuf : Str := "。请检查API密钥和网络连接。".data

/-- The f-string `f"[{category}] {article['title']}"` of line 253. -/
def formatTitle (cat title : Str) : Str := '[' :: (cat ++ (']' :: (' ' :: title)))

/-- One step of the loop at lines 249-253: skip an empty category, otherwise
record its count statistic and append the formatted titles of its first 10
articles. -/
def collectStep (acc : List Str × List (Str × Nat)) (p : Str × List Article) :
    List Str × List (Str × Nat) :=
  if p.2.isEmpty then acc
  else (acc.1 ++ (p.2.take 10).map (fun a => formatTitle p.1 a.title),
        acc.2 ++ [(p.1, p.2.length)])

/-- Lines 245-253 of `generate_daily_summary`: walk `articles_by_category` in
its own (registry) iteration order, producing `(all_titles, category_stats)`. -/
def collectTitles (store : Store) : List Str × List (Str × Nat) :=
  store.foldl collectStep ([], [])

/-- `all_titles[:60]`, the titles that enter the prompt (line 261). -/
def promptTitles (store : Store) : List Str := (collectTitles store).1.take 60

/-- The statistics line of line 262: `", ".join(f"{cat}:{count}篇" ...)`. -/
def statsText (stats : List (Str × Nat)) : Str :=
  List.intercalate ", ".data
    (stats.map (fun p => p.1 ++ ':' :: ((Nat.toDigits 10 p.2) ++ "篇".data)))

/-- Fixed template text of the prompt before the statistics line. -/
def promptHeader : Str :=
  ("\n        请基于以下今日新闻标题，生成一段400-600字的中文摘要。要求：\n        1. 不要机械复述标题，要进行概括与串联\n        2. 提炼出当日新闻的主要趋势、关注焦点或舆论动向\n        3. 风格自然流畅，具有整体感\n        4. 突出最重要的几个主题方向\n        5. 可以适当分析各领域的发展态势\n        6. 以专业但易懂的语言表达\n        \n        今日新闻统计：").data

/-- Fixed template text between the statistics line and the title list. -/
def promptMid : Str := ("\n        \n        新闻标题列表：\n        ").data

/-- Fixed template text after the title list, asking for the sentinel. -/
def promptFooter : Str :=
  ("\n        \n        请以\"今日导览摘要：\"开头，直接输出摘要内容，不要包含其他说明文字。\n        ").data

/-- The prompt of lines 264-279: template with the statistics line and the
newline-joined first 60 titles interpolated. -/
def promptOf (store : Store) : Str :=
  promptHeader ++ statsText (collectTitles store).2 ++ promptMid ++
    List.intercalate ('\n' :: []) (promptTitles store) ++ promptFooter

/-- `EnhancedNewsScraper.generate_daily_summary` (lines 241-305).  The
DeepSeek chat call is the parameter `callModel`; `Except.error e` stands for
an exception with message `e` raised by the call and handled by the `except`
clause at lines 302-305. -/
def generate_daily_summary (store : Store) (callModel : Str → Except Str Str) : Summary :=
  let allTitles := (collectTitles store).1
  if allTitles.isEmpty then ⟨noContentMsg, false⟩
  else
    match callModel (promptOf store) with
    | Except.ok response =>
      let summary := pyStrip response
      ⟨if startsWith summary sentinel then summary else sentinel ++ summary, false⟩
    | Except.error e => ⟨apiFailPre ++ e ++ apiFailSuf, true⟩

theorem isPrefixOf_append_of_isPrefixOf (p l t : Str) (h : p.isPrefixOf l = true) :
    p.isPrefixOf (l ++ t) = true := by
  rw [ List.isPrefixOf_iff_prefix] at h ⊢
  exact h.trans (List.prefix_append l t)

theorem sentinel_isPrefixOf_self_append (t : Str) :
    sentinel.isPrefixOf (sentinel ++ t) = true := by
  rw [ List.isPrefixOf_iff_prefix]
  exact List.prefix_append sentinel t

theorem gds_sentinel_aux (store : Store) (callModel : Str → Except Str Str) :
    sentinel.isPrefixOf (generate_daily_summary store callModel).text = true := by
  by_cases hempty : (collectTitles store).1.isEmpty
  · simp only [generate_daily_summary, hempty, if_pos]
    decide
  · have hne : ((collectTitles store).1.isEmpty) = false := by
      simpa using hempty
    simp only [generate_daily_summary, hne, Bool.false_eq_true, if_neg,
      not_false_eq_true]
    cases hc : callModel (promptOf store) with
    | ok resp =>
      simp only []
      by_cases hs : startsWith (pyStrip resp) sentinel = true
      · rw [if_pos hs]
        exact hs
      · have hs' : startsWith (pyStrip resp) sentinel = false := by simpa using hs
        simp only [hs', Bool.false_eq_true, if_neg, not_false_eq_true]
        exact sentinel_isPrefixOf_self_append (pyStrip resp)
    | error e =>
      simp only []
      have h1 : sentinel.isPrefixOf apiFailPre = true := by decide
      rw [List.append_assoc]
      exact isPrefixOf_append_of_isPrefixOf sentinel apiFailPre (e ++ apiFailSuf) h1

theorem gds_error_degraded (store : Store) (me : Str) :
    (generate_daily_summary store (fun _ => Except.error me)).degraded =
      !(collectTitles store).1.isEmpty := by
  by_cases hempty : (collectTitles store).1.isEmpty
  · simp [generate_daily_summary, hempty]
  · have hne : ((collectTitles store).1.isEmpty) = false := by simpa using hempty
    simp [generate_daily_summary, hne]

/-- C2: every summary text starts with the sentinel `今日导览摘要：`; on
success the sentinel is prepended exactly when the stripped response does not
already start with it; and when the model call raises, the summarizer — total,
so never itself raising — returns `degraded = true`. -/
theorem generate_daily_summary_sentinel (store : Store)
    (callModel : Str → Except Str Str) :
    sentinel.isPrefixOf (generate_daily_summary store callModel).text = true ∧
    ((collectTitles store).1 ≠ [] → ∀ e, callModel (promptOf store) = Except.error e →
      (generate_daily_summary store callModel).degraded = true) ∧
    ((collectTitles store).1 ≠ [] → ∀ resp, callModel (promptOf store) = Except.ok resp →
      (generate_daily_summary store callModel).text =
        (if sentinel.isPrefixOf (pyStrip resp) = true then pyStrip resp
         else sentinel ++ pyStrip resp)) := by
  refine ⟨gds_sentinel_aux store callModel, ?_, ?_⟩
  all_goals
    intro hnil
    have hne : ((collectTitles store).1.isEmpty) = false := by
      cases h : (collectTitles store).1 with
      | nil => exact absurd h hnil
      | cons a l => rfl
  · intro e hc
    simp [generate_daily_summary, hne, hc]
  · intro resp hc
    simp only [generate_daily_summary, hne, Bool.false_eq_true, if_neg,
      not_false_eq_true, hc]
    rfl

/-- C2 witness: a concrete non-empty store with a failing model call yields a
degraded, sentinel-prefixed summary; with a succeeding call the sentinel is
prepended to the response. -/
theorem generate_daily_summary_sentinel_witness :
    sentinel.isPrefixOf
      (generate_daily_summary cStore1 (fun _ => Except.error "boom".data)).text = true ∧
    (generate_daily_summary cStore1 (fun _ => Except.error "boom".data)).degraded = true ∧
    (generate_daily_summary cStore1 (fun _ => Except.ok "hello".data)).text =
      sentinel ++ "hello".data :=
  ⟨(generate_daily_summary_sentinel cStore1 (fun _ => Except.error "boom".data)).1,
   (generate_daily_summary_sentinel cStore1 (fun _ => Except.error "boom".data)).2.1
      (by decide) "boom".data rfl,
   by
    have h := (generate_daily_summary_sentinel cStore1
      (fun _ => Except.ok "hello".data)).2.2 (by decide) "hello".data rfl
    rw [h]
    decide⟩

theorem collectTitles_foldl (store : Store) (acc : List Str × List (Str × Nat)) :
    store.foldl collectStep acc =
      (acc.1 ++ (store.filter (fun p => !p.2.isEmpty)).flatMap
          (fun p => (p.2.take 10).map (fun a => formatTitle p.1 a.title)),
       acc.2 ++ (store.filter (fun p => !p.2.isEmpty)).map (fun p => (p.1, p.2.length))) := by
  induction store generalizing acc with
  | nil => simp
  | cons p rest ih =>
    simp only [List.foldl_cons, List.filter_cons]
    by_cases h : p.2.isEmpty
    · have hb : (!p.2.isEmpty) = false := by simp [h]
      rw [collectStep, if_pos h, hb]
      simpa using ih acc
    · have hb : (!p.2.isEmpty) = true := by simp [h]
      rw [collectStep, if_neg h, hb]
      simp only [if_pos]
      rw [ih]
      simp [List.append_assoc]

/-- C6 amended: the summarizer walks the categories in the REGISTRY iteration
order of `articles_by_category` — not in snapshot order — collecting from each
non-empty category the formatted titles of its first 10 articles and its
count statistic, and the prompt receives at most the first 60 titles. -/
theorem collectTitles_spec (store : Store) :
    (collectTitles store).1 = (store.filter (fun p => !p.2.isEmpty)).flatMap
        (fun p => (p.2.take 10).map (fun a => formatTitle p.1 a.title)) ∧
    (collectTitles store).2 = (store.filter (fun p => !p.2.isEmpty)).map
        (fun p => (p.1, p.2.length)) ∧
    (promptTitles store).length ≤ 60 := by
  refine ⟨?_, ?_, ?_⟩
  · rw [collectTitles, collectTitles_foldl]
    simp
  · rw [collectTitles, collectTitles_foldl]
    simp
  · have hlen : (promptTitles store).length =
        min 60 (collectTitles store).1.length := by
      rw [promptTitles, List.length_take]
    omega

/-- A concrete second article for a two-article category. -/
def cArticleB1 : Article := ⟨"tb1".data, "ub1".data, "s".data, none, "src".data⟩

/-- A concrete third article for a two-article category. -/
def cArticleB2 : Article := ⟨"tb2".data, "ub2".data, "s".data, none, "src".data⟩

/-- A store whose SECOND registry category has the larger count, so registry
order and snapshot order differ. -/
def cStore2 : Store := [("科技".data, [cArticle1]), ("金融".data, [cArticleB1, cArticleB2])]

/-- The walk C6 claims, following the spec's words: categories visited in
snapshot order (descending count, ties in registry order). -/
def collectTitlesSnapshotOrder (store : Store) : List Str :=
  (snapshotCounts store).foldl (fun acc p =>
    match store.find? (fun q => q.1 == p.1) with
    | some q => acc ++ (q.2.take 10).map (fun a => formatTitle q.1 a.title)
    | none => acc) []

/-- C6 counterexample: on a store whose second registry category holds more
articles, the title list the code builds (registry order) differs from the
snapshot-order list the claim describes. -/
theorem collectTitles_not_snapshot_order :
    (collectTitles cStore2).1 ≠ collectTitlesSnapshotOrder cStore2 := by decide

/-- `self.articles_by_category = {category: [] for category in ...}` (line 70). -/
def initStore (categories : List (Str × List Str)) : Store :=
  categories.map (fun p => (p.1, []))

/-- C7: on a store whose every category is empty, the summarizer returns the
fixed placeholder message with `degraded = false` whatever the model call
would do — the model is never consulted — and the placeholder carries the
sentinel prefix. -/
theorem generate_daily_summary_empty_store (store : Store)
    (h : ∀ p ∈ store, p.2 = ([] : List Article)) (callModel : Str → Except Str Str) :
    generate_daily_summary store callModel = ⟨noContentMsg, false⟩ ∧
    sentinel.isPrefixOf noContentMsg = true := by
  have hfilter : store.filter (fun p => !p.2.isEmpty) = [] := by
    rw [List.filter_eq_nil_iff]
    intro p hp
    simp [h p hp]
  have htitles : (collectTitles store).1 = [] := by
    rw [collectTitles, collectTitles_foldl]
    simp [hfilter]
  have hempty : (collectTitles store).1.isEmpty = true := by
    rw [htitles]
    rfl
  refine ⟨?_, by decide⟩
  simp [generate_daily_summary, hempty]

/-- C7 witness: the freshly initialized registry store is entirely empty and
yields the fixed placeholder, even under a succeeding model call. -/
theorem generate_daily_summary_empty_store_witness :
    generate_daily_summary (initStore defaultCategories)
      (fun _ => Except.ok "hello".data) = ⟨noContentMsg, false⟩ :=
  (generate_daily_summary_empty_store (initStore defaultCategories)
    (by intro p hp; obtain ⟨q, _, rfl⟩ := List.mem_map.mp hp; rfl)
    (fun _ => Except.ok "hello".data)).1

/-- A raw feed entry as read by `getattr` at lines 116-120 of
`fetch_news_from_rss`; `none` models a missing attribute, and
`contentValue` is `content[0].get('value', '')` of line 129. -/
structure RawEntry where
  title : Option Str
  link : Option Str
  summary : Str
  description : Str
  contentValue : Str
  published : Option Str
  updated : Option Str

/-- `getattr(entry, 'title', '无标题')` (line 116). -/
def entryTitle (e : RawEntry) : Str := e.title.getD "无标题".data

/-- `getattr(entry, 'link', '')` (line 117). -/
def entryLink (e : RawEntry) : Str := e.link.getD []

/-- Lines 122-133: prefer `summary`, else `description`, else the first
content value; truncate to 400 characters plus an ellipsis. -/
def entryContentText (e : RawEntry) : Str :=
  let ct := if e.summary ≠ [] then e.summary
            else if e.description ≠ [] then e.description
            else e.contentValue
  if ct.length > 400 then ct.take 400 ++ "...".data else ct

/-- Lines 136-140: `published` if present, else `updated`, else nothing. -/
def entryPubDate (e : RawEntry) : Option Str := e.published.or e.updated

/-- Mutable pipeline state: the global `processed_urls` seen-set and
`articles_by_category`. -/
structure PState where
  processed : List Str
  store : Store
deriving DecidableEq

/-- The body of the `for entry in feed.entries[:6]` loop (lines 114-168):
dedup check on the raw link and its unconditional recording, truthiness check
of link and title, keyword categorization, and insertion of the built article
into every matched category. -/
def processEntry (categories : List (Str × List Str)) (src : Str)
    (st : PState) (e : RawEntry) : PState :=
  let title := entryTitle e
  let link := entryLink e
  let contentText := entryContentText e
  if link ∈ st.processed then st
  else
    let processed' := link :: st.processed
    if link ≠ [] ∧ title ≠ [] then
      let res := categorize_article categories title contentText
      if res.1 = true ∧ res.2 ≠ [] then
        let article : Article := ⟨pyStrip title, pyStrip link,
          (if contentText ≠ [] then pyStrip contentText else "暂无摘要".data),
          entryPubDate e, src⟩
        ⟨processed', res.2.foldl (fun s c => store_add s c link article) st.store⟩
      else ⟨processed', st.store⟩
    else ⟨processed', st.store⟩

/-- One iteration of the `for rss_url in self.rss_sources` loop (lines
97-180): a source whose fetch raised is caught by the `except` clause at
lines 178-180 and skipped; otherwise its first 6 entries are processed.
The first component of `source` is its display name (`urlparse(...).netloc`). -/
def processSource (categories : List (Str × List Str))
    (st : PState) (source : Str × Except Str (List RawEntry)) : PState :=
  match source.2 with
  | Except.error _ => st
  | Except.ok entries => (entries.take 6).foldl (processEntry categories source.1) st

/-- `EnhancedNewsScraper.fetch_news_from_rss` (lines 88-182) over abstract
per-source outcomes. -/
def fetch_news_from_rss (categories : List (Str × List Str))
    (sources : List (Str × Except Str (List RawEntry))) (st : PState) : PState :=
  sources.foldl (processSource categories) st

/-- `EnhancedNewsScraper.scrape_news` (lines 231-239): fetch from every
source starting from the empty registry store, then remove duplicates. -/
def scrape_news (categories : List (Str × List Str))
    (sources : List (Str × Except Str (List RawEntry))) : PState :=
  let st := fetch_news_from_rss categories sources ⟨[], initStore categories⟩
  ⟨st.processed, remove_duplicates st.store⟩

/-- The structured content of the report assembled by `generate_html_report`
(lines 307-544): the summary, the sorted category snapshot, and the run
statistics of lines 521-527 (the HTML markup around them is presentation). -/
structure Report where
  summary : Summary
  snapshot : List (Str × Nat)
  totalArticles : Nat
  categoriesInvolved : Nat
  sourceCount : Nat

/-- `generate_html_report` restricted to its data content. -/
def generate_report (categories : List (Str × List Str))
    (sources : List (Str × Except Str (List RawEntry)))
    (callModel : Str → Except Str Str) : Report :=
  let st := scrape_news categories sources
  { summary := generate_daily_summary st.store callModel,
    snapshot := snapshotCounts st.store,
    totalArticles := (st.store.map (fun p => p.2.length)).sum,
    categoriesInvolved := ((snapshotCounts st.store).filter (fun p => decide (p.2 > 0))).length,
    sourceCount := sources.length }

/-- The scraper entry point as wired by `main` (lines 588-657): construction
raises `ValueError("DeepSeek API Key is required")` when no key is supplied
(lines 74-76), before any feed or model I/O; with a key, the pipeline runs to
a report. -/
def runMain (apiKey : Option Str) (categories : List (Str × List Str))
    (sources : List (Str × Except Str (List RawEntry)))
    (callModel : Str → Except Str Str) : Except Str Report :=
  match apiKey with
  | none => Except.error "DeepSeek API Key is required".data
  | some _ => Except.ok (generate_report categories sources callModel)

/-- A small registry with a single keyword, for concrete runs. -/
def cRegistry : List (Str × List Str) := [("AI".data, [("ai".data : Str)])]

/-- A concrete entry whose `title` attribute is missing and whose summary
matches the keyword `ai`. -/
def cEntryNoTitle : RawEntry := ⟨none, some "u9".data, "ai".data, [], [], none, none⟩

/-- A concrete entry whose `link` attribute is missing. -/
def cEntryNoLink : RawEntry := ⟨some "t".data, none, "ai".data, [], [], none, none⟩

/-- C8 counterexample: an entry with a MISSING title is not dropped — the
`getattr` default `无标题` of line 116 passes the truthiness check of line
147, so the entry becomes an article and is inserted into a category. -/
theorem processEntry_missing_title_inserted :
    cEntryNoTitle.title = none ∧
    (processEntry cRegistry "src".data ⟨[], initStore cRegistry⟩ cEntryNoTitle).store ≠
      initStore cRegistry := by
  refine ⟨rfl, ?_⟩
  decide

/-- C8 amended: an entry with a missing or empty url, or with an EMPTY
(present) title string, is dropped silently — never converted into an
article, the store unchanged; an entry whose title attribute is missing is
instead given the placeholder title `无标题` and processed normally. -/
theorem processEntry_dropped (categories : List (Str × List Str)) (src : Str)
    (st : PState) (e : RawEntry)
    (h : entryLink e = [] ∨ entryTitle e = []) :
    (processEntry categories src st e).store = st.store := by
  by_cases hmem : entryLink e ∈ st.processed
  · simp [processEntry, hmem]
  · have hcond : ¬(entryLink e ≠ [] ∧ entryTitle e ≠ []) := by
      rcases h with h | h
      · intro hc
        exact hc.1 h
      · intro hc
        exact hc.2 h
    simp [processEntry, hmem, hcond]

/-- C8 witness: a concrete entry with a missing link leaves the store
untouched. -/
theorem processEntry_dropped_witness :
    (processEntry cRegistry "src".data ⟨[], initStore cRegistry⟩ cEntryNoLink).store =
      initStore cRegistry :=
  processEntry_dropped cRegistry "src".data ⟨[], initStore cRegistry⟩ cEntryNoLink
    (Or.inl rfl)

/-- C9: without an API key the run fails before any I/O with the
configuration error; with a key the pipeline always returns a report (it is
total — no per-source or model failure propagates); a failing feed source is
skipped, leaving the fetch state exactly as if that source were absent; and
under a failing model call the report's summary text still carries the
sentinel and its `degraded` flag is set exactly when any title was collected
— an error value, never an exception. -/
theorem pipeline_resilience (categories : List (Str × List Str))
    (sources pre post : List (Str × Except Str (List RawEntry)))
    (name err me k : Str) (callModel : Str → Except Str Str) (st : PState) :
    runMain none categories sources callModel =
      Except.error "DeepSeek API Key is required".data ∧
    runMain (some k) categories sources callModel =
      Except.ok (generate_report categories sources callModel) ∧
    fetch_news_from_rss categories (pre ++ (name, Except.error err) :: post) st =
      fetch_news_from_rss categories (pre ++ post) st ∧
    sentinel.isPrefixOf
      (generate_report categories sources (fun _ => Except.error me)).summary.text = true ∧
    (generate_report categories sources (fun _ => Except.error me)).summary.degraded =
      !(collectTitles (scrape_news categories sources).store).1.isEmpty := by
  refine ⟨rfl, rfl, ?_, ?_, ?_⟩
  · simp [fetch_news_from_rss, List.foldl_append, processSource]
  · exact gds_sentinel_aux (scrape_news categories sources).store (fun _ => Except.error me)
  · exact gds_error_degraded (scrape_news categories sources).store me

end NewsDaily
